import Mathlib

/-!
Shallow embedding of the interactive canvas editor of the CFTV budget
application (`src/src/app/CFTVApp.ts` together with the constants of
`src/src/config.ts` and the types of `src/src/types/index.ts`).

Modelling conventions, used consistently below:

* Every coordinate, angle, range and rotation the TypeScript code ever
  stores is an integer (`Math.round` in `getCanvasCoordinates`,
  `parseInt` on form fields, `Math.round` on computed rotations and
  ranges, integer presets), so camera and wall attributes are `Int`.
* JavaScript `Math.sqrt` only ever feeds comparisons
  (`distance <= tol`, `distance >= 10`) or `Math.round`.  Comparisons
  are embedded by comparing squared distances with squared bounds
  (equivalent, both sides being nonnegative), and
  `Math.round (Math.sqrt n)` on a natural `n` is embedded by the exact
  integer function `jsRoundSqrt`; bridging lemmas against `Real.sqrt`
  are proved further down.
* The `%` of JavaScript is the truncating remainder (sign of the
  dividend), i.e. `Int.tmod`, not `Int.emod`.
* The mutable `state.selectedCamera` field holds a reference aliasing
  an element of `state.cameras`; the embedding stores the camera id and
  mutation through the alias becomes `mutateSelected`, which rewrites
  the camera(s) of that id in the list.  Ids are unique in every
  reachable state, so this is the same function on those states.
* DOM-only effects (CSS classes, cursor shapes, instruction texts,
  redraws, console logging) and the budget / proposal / floor-naming
  collaborators are outside the modelled core, exactly as in the spec;
  fields of `AppState` that only feed them (`budgetItems`,
  `floors.names`, `canvas.scale/offset`) are omitted.  Handle positions
  (`cameraEdit.rotationHandle/rangeHandle`) are kept because click
  dispatch reads them; they are set by the renderer, which is not
  modelled, and cleared by `clearCameraControls`, which is.
* Form-field reads (`parseInt(input.value)`) enter the model as already
  parsed arguments; an argument of type `Option Int` stands for a
  parse result where `none` is NaN.
-/

namespace CFTV

/-- The camera type enumeration of `types/index.ts`
(`dome | bullet | ptz | fisheye`). -/
inductive CameraType where
  | dome
  | bullet
  | ptz
  | fisheye
deriving DecidableEq, Repr

/-- `CAMERA_CONFIG.sizes` from `config.ts`: the icon radius per type. -/
def camSize : CameraType → Int
  | .dome => 12
  | .bullet => 10
  | .ptz => 14
  | .fisheye => 11

/-- `type.toUpperCase()` on the four camera type strings. -/
def CameraType.upper : CameraType → String
  | .dome => "DOME"
  | .bullet => "BULLET"
  | .ptz => "PTZ"
  | .fisheye => "FISHEYE"

/-- The edit modes of `types/index.ts`
(`select | camera | wall | delete`). -/
inductive EditMode where
  | select
  | camera
  | wall
  | delete
deriving DecidableEq, Repr

/-- The `Camera` interface of `types/index.ts` (the optional
`installationCost` is never written by the app and is omitted). -/
structure Camera where
  id : Int
  x : Int
  y : Int
  type : CameraType
  angle : Int
  range : Int
  rotation : Int
  floor : Int
  label : String
  status : String
  price : ℚ
  description : String
deriving DecidableEq, Repr

/-- The `Wall` interface of `types/index.ts`; the `type` tag is always
the literal string "wall" in `addWall`. -/
structure Wall where
  id : Int
  startX : Int
  startY : Int
  endX : Int
  endY : Int
  thickness : Int
  floor : Int
  type : String
deriving DecidableEq, Repr

/-- `state.cameraEdit` of `CFTVApp.ts`: the handle-drag sub-state.
Handle positions are real points (they involve `cos`/`sin`); they are
written only by the renderer (not modelled) and read by hit tests. -/
structure CameraEditState where
  isRotating : Bool
  isResizing : Bool
  rotationHandle : Option (ℚ × ℚ)
  rangeHandle : Option (ℚ × ℚ)
deriving DecidableEq

/-- The scene/editor state of `CFTVApp.ts` (`this.state`), restricted
to the canvas-editor core: `isDragging` is `state.canvas.isDragging`.
The unused `isAddingCamera` flag, the budget list and the floor-name
table are omitted (they never feed the modelled operations). -/
structure AppState where
  cameras : List Camera
  walls : List Wall
  nextCameraId : Int
  nextWallId : Int
  selectedCamera : Option Int
  currentFloor : Int
  isDrawingWall : Bool
  wallStartPoint : Option (Int × Int)
  currentTool : EditMode
  isDragging : Bool
  cameraEdit : CameraEditState
deriving DecidableEq

/-- `CANVAS_CONFIG.width` from `config.ts`. -/
def canvasWidth : Int := 800

/-- `CANVAS_CONFIG.height` from `config.ts`. -/
def canvasHeight : Int := 450

/-- `CAMERA_CONFIG.defaultAngle` from `config.ts`. -/
def defaultAngle : Int := 90

/-- `CAMERA_CONFIG.defaultRange` from `config.ts`. -/
def defaultRange : Int := 50

/-- The cleared `cameraEdit` sub-state produced by
`clearCameraControls` (edit flags false, both handles null). -/
def clearedEdit : CameraEditState :=
  { isRotating := false, isResizing := false,
    rotationHandle := none, rangeHandle := none }

/-- The initial `this.state` of the `CFTVApp` constructor (editor-core
fields). -/
def initialState : AppState :=
  { cameras := [], walls := [],
    nextCameraId := 1, nextWallId := 1,
    selectedCamera := none, currentFloor := 1,
    isDrawingWall := false, wallStartPoint := none,
    currentTool := .select, isDragging := false,
    cameraEdit := clearedEdit }

/-- Squared Euclidean distance between integer points; the code forms
`Math.sqrt` of exactly this quantity. -/
def sqDistI (x1 y1 x2 y2 : Int) : Int :=
  (x1 - x2) ^ 2 + (y1 - y2) ^ 2

/-- The exact value of `Math.round (Math.sqrt n)` for a natural `n`
(JavaScript rounds halves up, so this is the floor of `sqrt n + 1/2`);
checked against `Real.sqrt` in `jsRoundSqrt_close` and
`jsRoundSqrt_sq` below. -/
def jsRoundSqrt (n : ℕ) : ℕ :=
  (Nat.sqrt (4 * n) + 1) / 2

/-- `Math.round (Math.sqrt n)` on an integer `n ≥ 0` (all the
squared distances fed to it are nonnegative). -/
def jsRoundSqrtI (n : Int) : Int :=
  Int.ofNat (jsRoundSqrt n.toNat)

/-- `distanceToLineSegment` of `CFTVApp.ts`, embedded by its square:
the source returns `Math.sqrt` of this value, and every consumer
compares that square root against a nonnegative tolerance. -/
def distanceToLineSegmentSq (px py x1 y1 x2 y2 : ℚ) : ℚ :=
  let dx := x2 - x1
  let dy := y2 - y1
  if dx * dx + dy * dy = 0 then (px - x1) ^ 2 + (py - y1) ^ 2
  else
    let t := max 0 (min 1 (((px - x1) * dx + (py - y1) * dy) / (dx * dx + dy * dy)))
    let projectionX := x1 + t * dx
    let projectionY := y1 + t * dy
    (px - projectionX) ^ 2 + (py - projectionY) ^ 2

/-- `isPointInHandle` of `CFTVApp.ts`: distance from `(x, y)` to the
handle at most `radius` (squared comparison). -/
def isPointInHandle (x y : Int) (handle : ℚ × ℚ) (radius : ℚ) : Bool :=
  decide (((x : ℚ) - handle.1) ^ 2 + ((y : ℚ) - handle.2) ^ 2 ≤ radius ^ 2)

/-- The camera the `selectedCamera` reference aliases: the camera of
the stored id in the list. -/
def getSelected (st : AppState) : Option Camera :=
  st.selectedCamera.bind fun i => st.cameras.find? fun c => c.id == i

/-- Mutation through the `selectedCamera` alias
(`this.state.selectedCamera.field = v`): rewrite the camera with the
selected id inside `state.cameras`. -/
def mutateSelected (st : AppState) (f : Camera → Camera) : AppState :=
  match st.selectedCamera with
  | none => st
  | some i =>
    { st with cameras := st.cameras.map fun c => if c.id == i then f c else c }

/-- `setMode` of `CFTVApp.ts`: store the new tool; everything else the
method touches is CSS classes and instruction text. -/
def setMode (st : AppState) (mode : EditMode) : AppState :=
  { st with currentTool := mode }

/-- `addWall` of `CFTVApp.ts`. -/
def addWall (st : AppState) (startX startY endX endY : Int) : AppState :=
  { st with
    walls := st.walls ++
      [{ id := st.nextWallId, startX := startX, startY := startY,
         endX := endX, endY := endY, thickness := 5,
         floor := st.currentFloor, type := "wall" }],
    nextWallId := st.nextWallId + 1 }

/-- `handleWallDrawing` of `CFTVApp.ts`.  The click coordinates are
clamped into the canvas; the second click commits the wall exactly when
the distance from the recorded start point is at least 10 pixels
(`Math.sqrt d ≥ 10 ↔ d ≥ 100`). -/
def handleWallDrawing (st : AppState) (x y : Int) : AppState :=
  let clampedX := max 0 (min canvasWidth x)
  let clampedY := max 0 (min canvasHeight y)
  if !st.isDrawingWall then
    { st with wallStartPoint := some (clampedX, clampedY), isDrawingWall := true }
  else
    match st.wallStartPoint with
    | some s =>
      let st1 :=
        if 100 ≤ sqDistI clampedX clampedY s.1 s.2 then
          addWall st s.1 s.2 clampedX clampedY
        else st
      { st1 with isDrawingWall := false, wallStartPoint := none }
    | none => st

/-- The camera hit predicate of `deleteAtPosition` / `selectCamera`:
on the current floor and within the type icon radius of the click
(`Math.sqrt d ≤ r ↔ d ≤ r²`). -/
def camHit (floor x y : Int) (c : Camera) : Bool :=
  c.floor == floor && decide (sqDistI c.x c.y x y ≤ camSize c.type ^ 2)

/-- The wall hit predicate of `deleteAtPosition`: on the current floor
and within the 8 px click tolerance of the segment
(`Math.sqrt d ≤ 8 ↔ d ≤ 64`). -/
def wallHit (floor x y : Int) (w : Wall) : Bool :=
  w.floor == floor &&
    decide (distanceToLineSegmentSq (x : ℚ) (y : ℚ)
      (w.startX : ℚ) (w.startY : ℚ) (w.endX : ℚ) (w.endY : ℚ) ≤ 64)

/-- `deleteAtPosition` of `CFTVApp.ts`: first matching camera of the
current floor is removed (selection and handle state reset via
`clearCameraControls`); only if none matched, the first matching wall
of the current floor is removed. -/
def deleteAtPosition (st : AppState) (x y : Int) : AppState :=
  match st.cameras.findIdx? (camHit st.currentFloor x y) with
  | some i =>
    { st with cameras := st.cameras.eraseIdx i,
              selectedCamera := none, cameraEdit := clearedEdit }
  | none =>
    match st.walls.findIdx? (wallHit st.currentFloor x y) with
    | some j => { st with walls := st.walls.eraseIdx j }
    | none => st

/-- `addCamera` of `CFTVApp.ts`; `type` is the value of the
`cameraType` selector.  The label uses `nextCameraId - 1` read after
the post-increment, i.e. the new camera's id. -/
def addCamera (st : AppState) (x y : Int) (type : CameraType) : AppState :=
  { st with
    cameras := st.cameras ++
      [{ id := st.nextCameraId, x := x, y := y, type := type,
         angle := defaultAngle, range := defaultRange, rotation := 0,
         floor := st.currentFloor,
         label := type.upper ++ " " ++ toString st.nextCameraId,
         status := "active", price := 350,
         description := "Câmera " ++ type.upper }],
    nextCameraId := st.nextCameraId + 1 }

/-- `selectCamera` of `CFTVApp.ts`: while a drag is active the click
moves the selected camera; otherwise the first camera of the current
floor within its icon radius becomes the selection (or the selection
is cleared). -/
def selectCamera (st : AppState) (x y : Int) : AppState :=
  if st.isDragging && st.selectedCamera.isSome then
    mutateSelected st fun c => { c with x := x, y := y }
  else
    { st with selectedCamera :=
        (st.cameras.find? (camHit st.currentFloor x y)).map (·.id) }

/-- `handleCanvasClick` of `CFTVApp.ts`: out-of-canvas clicks are
dropped; in select mode with a selection, clicks on the rotation or
range handle are ignored (they are handled on mousedown); otherwise
the click dispatches on the current tool. -/
def handleCanvasClick (st : AppState) (x y : Int) (type : CameraType) : AppState :=
  if x < 0 || x > canvasWidth || y < 0 || y > canvasHeight then st
  else if st.currentTool == .select && st.selectedCamera.isSome &&
      ((match st.cameraEdit.rotationHandle with
        | some h => isPointInHandle x y h 8
        | none => false) ||
       (match st.cameraEdit.rangeHandle with
        | some h => isPointInHandle x y h 7
        | none => false)) then st
  else
    match st.currentTool with
    | .camera => addCamera st x y type
    | .select => selectCamera st x y
    | .wall => handleWallDrawing st x y
    | .delete => deleteAtPosition st x y

/-- `handleCanvasMouseMove` of `CFTVApp.ts`.  `atan2deg dy dx` stands
for `Math.round ((Math.atan2 dy dx * 180 / Math.PI + 360) % 360)`, the
only transcendental computation of the method; every theorem below
holds for an arbitrary such function.  The wall-preview branch and the
cursor branch only draw. -/
def handleCanvasMouseMove (atan2deg : Int → Int → Int)
    (st : AppState) (x y : Int) : AppState :=
  if st.isDrawingWall && st.wallStartPoint.isSome then st
  else if st.cameraEdit.isRotating && st.selectedCamera.isSome then
    mutateSelected st fun c => { c with rotation := atan2deg (y - c.y) (x - c.x) }
  else if st.cameraEdit.isResizing && st.selectedCamera.isSome then
    mutateSelected st fun c =>
      { c with range := max 20 (min 100 (jsRoundSqrtI (sqDistI x y c.x c.y))) }
  else if st.isDragging && st.selectedCamera.isSome then
    mutateSelected st fun c => { c with x := x, y := y }
  else st

/-- `handleCanvasMouseUp` of `CFTVApp.ts`: ends whichever of the three
drag gestures is active. -/
def handleCanvasMouseUp (st : AppState) : AppState :=
  { st with isDragging := false,
            cameraEdit := { st.cameraEdit with isRotating := false, isResizing := false } }

/-- The keys `handleKeyDown` dispatches on, after `key.toLowerCase()`;
`other` covers every remaining key. -/
inductive Key where
  | arrowLeft
  | arrowRight
  | arrowUp
  | arrowDown
  | keyA
  | keyD
  | keyW
  | keyS
  | keyQ
  | keyE
  | keyZ
  | keyC
  | space
  | other
deriving DecidableEq, Repr

/-- `handleKeyDown` of `CFTVApp.ts`: inactive without a selection or
when the event target is a text input / textarea; arrow-left/right and
A/D step the rotation by ∓/± 15 through
`(rotation + change + 360) % 360` with the JavaScript truncating `%`;
the other handled keys store fixed rotations. -/
def handleKeyDown (st : AppState) (key : Key) (isTextInputTarget : Bool) : AppState :=
  if st.selectedCamera.isNone then st
  else if isTextInputTarget then st
  else
    match key with
    | .arrowLeft | .keyA =>
      mutateSelected st fun c =>
        { c with rotation := Int.tmod (c.rotation + (-15) + 360) 360 }
    | .arrowRight | .keyD =>
      mutateSelected st fun c =>
        { c with rotation := Int.tmod (c.rotation + 15 + 360) 360 }
    | .arrowUp | .keyW => mutateSelected st fun c => { c with rotation := 90 }
    | .arrowDown | .keyS => mutateSelected st fun c => { c with rotation := 270 }
    | .keyQ => mutateSelected st fun c => { c with rotation := 135 }
    | .keyE => mutateSelected st fun c => { c with rotation := 45 }
    | .keyZ => mutateSelected st fun c => { c with rotation := 225 }
    | .keyC => mutateSelected st fun c => { c with rotation := 315 }
    | .space => mutateSelected st fun c => { c with rotation := 0 }
    | .other => st

/-- `changeFloor` of `CFTVApp.ts`: a no-op on the current floor;
otherwise stores the floor, clears the selection and (through
`clearCameraControls`) the handle/edit sub-state. -/
def changeFloor (st : AppState) (floor : Int) : AppState :=
  if floor == st.currentFloor then st
  else
    { st with currentFloor := floor, selectedCamera := none,
              cameraEdit := clearedEdit }

/-- `updateCameraPosition` of `CFTVApp.ts`: the two position fields as
parse results (`none` = NaN); the mutation is applied only when both
parse, with each coordinate clamped into the canvas. -/
def updateCameraPosition (st : AppState) (xv yv : Option Int) : AppState :=
  if st.selectedCamera.isNone then st
  else
    match xv, yv with
    | some x, some y =>
      mutateSelected st fun c =>
        { c with x := max 0 (min x canvasWidth), y := max 0 (min y canvasHeight) }
    | _, _ => st

/-- `updateSelectedCamera` of `CFTVApp.ts` on parsed field values: the
position is clamped into the canvas, while angle, range and rotation
are stored exactly as parsed, with no clamping and no NaN guard. -/
def updateSelectedCamera (st : AppState) (xv yv av rv rotv : Int) : AppState :=
  if st.selectedCamera.isNone then st
  else
    mutateSelected st fun c =>
      { c with x := max 0 (min xv canvasWidth), y := max 0 (min yv canvasHeight),
               angle := av, range := rv, rotation := rotv }

/-- `updateAngleDisplay` of `CFTVApp.ts` on the parsed slider value:
beyond updating the display text, it stores the value as the selected
camera's angle, unclamped. -/
def updateAngleDisplay (st : AppState) (av : Int) : AppState :=
  if st.selectedCamera.isNone then st
  else mutateSelected st fun c => { c with angle := av }

/-- `updateRangeDisplay` of `CFTVApp.ts` on the parsed slider value. -/
def updateRangeDisplay (st : AppState) (rv : Int) : AppState :=
  if st.selectedCamera.isNone then st
  else mutateSelected st fun c => { c with range := rv }

/-- `updateRotationDisplay` of `CFTVApp.ts` on the parsed slider
value. -/
def updateRotationDisplay (st : AppState) (rotv : Int) : AppState :=
  if st.selectedCamera.isNone then st
  else mutateSelected st fun c => { c with rotation := rotv }

/-- The direction table of `applyCameraDirectionPreset`. -/
def directionPresetValue (direction : String) : Option Int :=
  if direction = "norte" then some 90
  else if direction = "nordeste" then some 45
  else if direction = "leste" then some 0
  else if direction = "sudeste" then some 315
  else if direction = "sul" then some 270
  else if direction = "sudoeste" then some 225
  else if direction = "oeste" then some 180
  else if direction = "noroeste" then some 135
  else none

/-- `applyCameraDirectionPreset` of `CFTVApp.ts`. -/
def applyCameraDirectionPreset (st : AppState) (direction : String) : AppState :=
  if st.selectedCamera.isNone then st
  else
    match directionPresetValue direction.toLower with
    | some r => mutateSelected st fun c => { c with rotation := r }
    | none => st

/-- The preset table of `applyCameraPreset` (angle, range). -/
def cameraPresetValue (presetName : String) : Option (Int × Int) :=
  if presetName = "close" then some (60, 30)
  else if presetName = "medium" then some (90, 50)
  else if presetName = "wide" then some (120, 80)
  else if presetName = "corridor" then some (45, 60)
  else if presetName = "entrance" then some (90, 40)
  else if presetName = "parking" then some (120, 100)
  else none

/-- `applyCameraPreset` of `CFTVApp.ts`. -/
def applyCameraPreset (st : AppState) (presetName : String) : AppState :=
  if st.selectedCamera.isNone then st
  else
    match cameraPresetValue presetName with
    | some p =>
      mutateSelected st fun c => { c with angle := p.1, range := p.2 }
    | none => st

/-- The per-key rotation function implemented by `handleKeyDown`: the
`rotationChange` arithmetic for stepping keys and the fixed snaps for
the others (`other` keys leave the rotation unchanged). -/
def keyRotation (key : Key) (r : Int) : Int :=
  match key with
  | .arrowLeft | .keyA => Int.tmod (r + (-15) + 360) 360
  | .arrowRight | .keyD => Int.tmod (r + 15 + 360) 360
  | .arrowUp | .keyW => 90
  | .arrowDown | .keyS => 270
  | .keyQ => 135
  | .keyE => 45
  | .keyZ => 225
  | .keyC => 315
  | .space => 0
  | .other => r

/-- The configured bounds of `CAMERA_SPECS` (`config.ts`): angle in
[MIN_ANGLE, MAX_ANGLE] = [30, 180], range in [MIN_RANGE, MAX_RANGE] =
[20, 100], rotation normalized into [0, 360). -/
def CameraInBounds (c : Camera) : Prop :=
  30 ≤ c.angle ∧ c.angle ≤ 180 ∧ 20 ≤ c.range ∧ c.range ≤ 100 ∧
    0 ≤ c.rotation ∧ c.rotation < 360

instance (c : Camera) : Decidable (CameraInBounds c) := by
  unfold CameraInBounds
  infer_instance

/-! Concrete states used by the closed instances below. -/

/-- A dome camera with default attributes at (50, 50) on floor 1, as
`addCamera` creates it from the initial state. -/
def cam1 : Camera :=
  { id := 1, x := 50, y := 50, type := .dome, angle := 90, range := 50,
    rotation := 0, floor := 1, label := "DOME 1", status := "active",
    price := 350, description := "Câmera DOME" }

/-- The state after placing `cam1` and selecting it. -/
def stSel : AppState :=
  { initialState with
    cameras := [cam1], nextCameraId := 2, selectedCamera := some 1 }

/-- `stSel` with the camera rotated to 10 degrees. -/
def stRot10 : AppState :=
  { stSel with cameras := [{ cam1 with rotation := 10 }] }

/-- `stSel` with an active range-resize gesture on the selection. -/
def stResize : AppState :=
  { stSel with cameraEdit := { clearedEdit with isResizing := true } }

/-- A wall-drawing-in-progress state in wall mode with recorded start
point (0, 0). -/
def stDrawing : AppState :=
  { initialState with
    currentTool := .wall, isDrawingWall := true,
    wallStartPoint := some (0, 0) }

/-- A diagonal wall through (50, 50) on floor 1. -/
def wall1 : Wall :=
  { id := 1, startX := 40, startY := 40, endX := 60, endY := 60,
    thickness := 5, floor := 1, type := "wall" }

/-- Delete mode, with `cam1` and `wall1` both within tolerance of the
point (50, 50), and no selection. -/
def stBoth : AppState :=
  { initialState with
    cameras := [cam1], walls := [wall1],
    nextCameraId := 2, nextWallId := 2, currentTool := .delete }

/-- A second dome camera far from `cam1`. -/
def cam2 : Camera :=
  { cam1 with id := 2, x := 300, y := 300, label := "DOME 2" }

/-- Delete mode with two cameras, the second one selected; a click on
`cam1` removes a camera that is not the selection. -/
def stTwo : AppState :=
  { initialState with
    cameras := [cam1, cam2], nextCameraId := 3,
    selectedCamera := some 2, currentTool := .delete }

/-- Delete mode with only the far camera `cam2` (selected) and
`wall1`; a click at (50, 50) misses every camera and hits the wall. -/
def stWallSel : AppState :=
  { initialState with
    cameras := [cam2], walls := [wall1],
    nextCameraId := 3, nextWallId := 2, selectedCamera := some 2,
    currentTool := .delete }

/-! Helper lemmas (shared; no claim theorem is ever used by another
proof). -/

/-- Rewriting the camera of id `i` commutes with looking it up, as
long as the rewrite preserves ids. -/
theorem find_map_ite (l : List Camera) (i : Int) (f : Camera → Camera)
    (hf : ∀ c, (f c).id = c.id) :
    ((l.map fun c => if c.id == i then f c else c).find? fun c => c.id == i) =
      (l.find? fun c => c.id == i).map f := by
  induction l with
  | nil => rfl
  | cons a t ih =>
    simp only [List.map_cons]
    by_cases h : a.id = i
    · rw [if_pos (by simpa using h)]
      rw [List.find?_cons_of_pos _ (by simp [hf, h]),
          List.find?_cons_of_pos _ (by simp [h])]
      rfl
    · rw [if_neg (by simpa using h)]
      rw [List.find?_cons_of_neg _ (by simp [h]),
          List.find?_cons_of_neg _ (by simp [h])]
      exact ih

/-- Mutation through the selection alias, seen through `getSelected`. -/
theorem getSelected_mutateSelected (st : AppState) (i : Int) (cam : Camera)
    (f : Camera → Camera) (hf : ∀ c, (f c).id = c.id)
    (hsel : st.selectedCamera = some i)
    (hfind : (st.cameras.find? fun c => c.id == i) = some cam) :
    getSelected (mutateSelected st f) = some (f cam) := by
  simp only [mutateSelected, hsel, getSelected, Option.some_bind]
  rw [find_map_ite st.cameras i f hf, hfind]
  rfl

/-- `mutateSelected` only touches the camera list. -/
theorem mutateSelected_frame (st : AppState) (f : Camera → Camera) :
    (mutateSelected st f).selectedCamera = st.selectedCamera ∧
    (mutateSelected st f).walls = st.walls ∧
    (mutateSelected st f).currentTool = st.currentTool ∧
    (mutateSelected st f).isDrawingWall = st.isDrawingWall ∧
    (mutateSelected st f).wallStartPoint = st.wallStartPoint ∧
    (mutateSelected st f).cameraEdit = st.cameraEdit := by
  unfold mutateSelected
  rcases h : st.selectedCamera with _ | i <;> simp [h]

/-- In camera mode an in-canvas click is exactly `addCamera`. -/
theorem handleCanvasClick_camera (st : AppState) (x y : Int) (type : CameraType)
    (hm : st.currentTool = .camera)
    (hx0 : 0 ≤ x) (hx1 : x ≤ canvasWidth) (hy0 : 0 ≤ y) (hy1 : y ≤ canvasHeight) :
    handleCanvasClick st x y type = addCamera st x y type := by
  obtain ⟨cams, walls, ncid, nwid, sel, fl, draw, wsp, tool, drag, ce⟩ := st
  simp only at hm
  subst hm
  rw [handleCanvasClick,
    if_neg (by simp only [Bool.or_eq_true, decide_eq_true_eq]; omega)]
  rfl

/-- In wall mode an in-canvas click is exactly `handleWallDrawing`. -/
theorem handleCanvasClick_wall (st : AppState) (x y : Int) (type : CameraType)
    (hm : st.currentTool = .wall)
    (hx0 : 0 ≤ x) (hx1 : x ≤ canvasWidth) (hy0 : 0 ≤ y) (hy1 : y ≤ canvasHeight) :
    handleCanvasClick st x y type = handleWallDrawing st x y := by
  obtain ⟨cams, walls, ncid, nwid, sel, fl, draw, wsp, tool, drag, ce⟩ := st
  simp only at hm
  subst hm
  rw [handleCanvasClick,
    if_neg (by simp only [Bool.or_eq_true, decide_eq_true_eq]; omega)]
  rfl

/-- In delete mode an in-canvas click is exactly `deleteAtPosition`. -/
theorem handleCanvasClick_delete (st : AppState) (x y : Int) (type : CameraType)
    (hm : st.currentTool = .delete)
    (hx0 : 0 ≤ x) (hx1 : x ≤ canvasWidth) (hy0 : 0 ≤ y) (hy1 : y ≤ canvasHeight) :
    handleCanvasClick st x y type = deleteAtPosition st x y := by
  obtain ⟨cams, walls, ncid, nwid, sel, fl, draw, wsp, tool, drag, ce⟩ := st
  simp only at hm
  subst hm
  rw [handleCanvasClick,
    if_neg (by simp only [Bool.or_eq_true, decide_eq_true_eq]; omega)]
  rfl

/-- For a nonnegative dividend the JavaScript remainder by 360 is the
Euclidean one, hence lies in `[0, 360)`. -/
theorem tmod360_mem (a : Int) (h : 0 ≤ a) :
    0 ≤ Int.tmod a 360 ∧ Int.tmod a 360 < 360 := by
  rw [Int.tmod_eq_emod h (by norm_num)]
  exact ⟨Int.emod_nonneg a (by norm_num), Int.emod_lt_of_pos a (by norm_num)⟩

/-- `jsRoundSqrt` is exact on perfect squares. -/
theorem jsRoundSqrt_sq (d : ℕ) : jsRoundSqrt (d * d) = d := by
  unfold jsRoundSqrt
  rw [show 4 * (d * d) = (2 * d) * (2 * d) by ring, Nat.sqrt_eq]
  omega

/-- `jsRoundSqrt n` is within 1/2 of the real square root, as the
rounding of `Real.sqrt n` must be. -/
theorem jsRoundSqrt_close (n : ℕ) :
    (jsRoundSqrt n : ℝ) - 1 / 2 ≤ Real.sqrt n ∧
      Real.sqrt n ≤ (jsRoundSqrt n : ℝ) + 1 / 2 := by
  have h4 : Real.sqrt ((4 * n : ℕ) : ℝ) = 2 * Real.sqrt n := by
    push_cast
    rw [show ((4 : ℝ) * n) = 2 ^ 2 * n by ring, Real.sqrt_mul (by positivity),
      Real.sqrt_sq (by norm_num)]
  have hs1 : ((Nat.sqrt (4 * n) : ℕ) : ℝ) ≤ 2 * Real.sqrt n := by
    rw [← h4, Real.le_sqrt (by positivity) (by positivity)]
    have h1 : ((Nat.sqrt (4 * n) ^ 2 : ℕ) : ℝ) ≤ ((4 * n : ℕ) : ℝ) :=
      by exact_mod_cast Nat.sqrt_le' (4 * n)
    push_cast at h1 ⊢
    nlinarith [h1]
  have hlt : ((4 * n : ℕ) : ℝ) < (((Nat.sqrt (4 * n) : ℕ) : ℝ) + 1) ^ 2 := by
    have h1 : ((4 * n : ℕ) : ℝ) < (((Nat.sqrt (4 * n) + 1) ^ 2 : ℕ) : ℝ) :=
      by exact_mod_cast Nat.lt_succ_sqrt' (4 * n)
    push_cast at h1 ⊢
    nlinarith [h1]
  have hs2 : 2 * Real.sqrt n < ((Nat.sqrt (4 * n) : ℕ) : ℝ) + 1 := by
    rw [← h4]
    calc Real.sqrt ((4 * n : ℕ) : ℝ)
        < Real.sqrt ((((Nat.sqrt (4 * n) : ℕ) : ℝ) + 1) ^ 2) :=
          Real.sqrt_lt_sqrt (by positivity) hlt
      _ = ((Nat.sqrt (4 * n) : ℕ) : ℝ) + 1 := Real.sqrt_sq (by positivity)
  have hk : 2 * jsRoundSqrt n ≤ Nat.sqrt (4 * n) + 1 ∧
      Nat.sqrt (4 * n) ≤ 2 * jsRoundSqrt n := by
    unfold jsRoundSqrt
    omega
  constructor
  · have : ((2 * jsRoundSqrt n : ℕ) : ℝ) ≤ ((Nat.sqrt (4 * n) + 1 : ℕ) : ℝ) := by
      exact_mod_cast hk.1
    push_cast at this
    linarith
  · have : ((Nat.sqrt (4 * n) : ℕ) : ℝ) ≤ ((2 * jsRoundSqrt n : ℕ) : ℝ) := by
      exact_mod_cast hk.2
    push_cast at this
    linarith

/-- Bridge: the source comparison `Math.sqrt d <= r` is the squared
comparison used throughout the embedding. -/
theorem sqrt_le_iff_sq_le (d r : Int) (hd : 0 ≤ d) (hr : 0 ≤ r) :
    Real.sqrt (d : ℝ) ≤ (r : ℝ) ↔ d ≤ r ^ 2 := by
  rw [Real.sqrt_le_left (by exact_mod_cast hr)]
  exact_mod_cast Iff.rfl

/-- Bridge: the source comparison `r <= Math.sqrt d` is the squared
comparison used throughout the embedding. -/
theorem le_sqrt_iff_sq_le (d r : Int) (hd : 0 ≤ d) (hr : 0 ≤ r) :
    (r : ℝ) ≤ Real.sqrt (d : ℝ) ↔ r ^ 2 ≤ d := by
  rw [Real.le_sqrt (by exact_mod_cast hr) (by exact_mod_cast hd)]
  exact_mod_cast Iff.rfl

/-- Claim C4: in wall mode with a drawing gesture in progress, the
second click commits a wall to the current floor with exactly the
recorded start point and the click point as endpoints if and only if
their Euclidean distance is at least 10 pixels (squared: `100 ≤`
squared distance); shorter segments are discarded and never stored; in
either outcome the drawing sub-state is exited, the start point is
cleared, and the cameras are untouched. -/
theorem C4_wall_min_length (st : AppState) (x y sx sy : Int) (type : CameraType)
    (hm : st.currentTool = .wall)
    (hd : st.isDrawingWall = true)
    (hs : st.wallStartPoint = some (sx, sy))
    (hx0 : 0 ≤ x) (hx1 : x ≤ canvasWidth) (hy0 : 0 ≤ y) (hy1 : y ≤ canvasHeight) :
    (100 ≤ sqDistI x y sx sy →
      (handleCanvasClick st x y type).walls = st.walls ++
        [{ id := st.nextWallId, startX := sx, startY := sy, endX := x,
           endY := y, thickness := 5, floor := st.currentFloor,
           type := "wall" }]) ∧
    (sqDistI x y sx sy < 100 → (handleCanvasClick st x y type).walls = st.walls) ∧
    (handleCanvasClick st x y type).isDrawingWall = false ∧
    (handleCanvasClick st x y type).wallStartPoint = none ∧
    (handleCanvasClick st x y type).cameras = st.cameras := by
  rw [handleCanvasClick_wall st x y type hm hx0 hx1 hy0 hy1]
  have hcx : max 0 (min canvasWidth x) = x := by unfold canvasWidth at *; omega
  have hcy : max 0 (min canvasHeight y) = y := by unfold canvasHeight at *; omega
  by_cases hc : 100 ≤ sqDistI x y sx sy
  · refine ⟨fun _ => ?_, fun habs => absurd hc (by omega), ?_, ?_, ?_⟩ <;>
      simp [handleWallDrawing, hd, hs, hcx, hcy, hc, addWall]
  · refine ⟨fun habs => absurd habs hc, fun _ => ?_, ?_, ?_, ?_⟩ <;>
      simp [handleWallDrawing, hd, hs, hcx, hcy, hc, addWall]

/-- Claim C4 witness: from the drawing state started at (0, 0), a
click at (20, 0) (length 20) commits the wall with exactly those
endpoints, while a click at (3, 0) (length 3) commits nothing; both
exit the drawing sub-state. -/
theorem C4_wall_min_length_witness :
    ((handleCanvasClick stDrawing 20 0 .dome).walls =
      [{ id := 1, startX := 0, startY := 0, endX := 20, endY := 0,
         thickness := 5, floor := 1, type := "wall" }] ∧
     (handleCanvasClick stDrawing 20 0 .dome).isDrawingWall = false) ∧
    ((handleCanvasClick stDrawing 3 0 .dome).walls = [] ∧
     (handleCanvasClick stDrawing 3 0 .dome).wallStartPoint = none) := by
  have h1 := C4_wall_min_length stDrawing 20 0 0 0 .dome rfl rfl rfl
    (by decide) (by decide) (by decide) (by decide)
  have h2 := C4_wall_min_length stDrawing 3 0 0 0 .dome rfl rfl rfl
    (by decide) (by decide) (by decide) (by decide)
  refine ⟨⟨?_, h1.2.2.1⟩, ?_, h2.2.2.2.1⟩
  · simpa [stDrawing, initialState] using h1.1 (by decide)
  · simpa [stDrawing, initialState] using h2.2.1 (by decide)

/-- Claim C6: an in-canvas click in camera mode appends exactly one
new camera whose id is the next-id counter (which increments), placed
at the click point on the current floor with the chosen type and
defaults angle 90, range 50, rotation 0; the id bound and id
uniqueness are preserved. -/
theorem C6_camera_click (st : AppState) (x y : Int) (type : CameraType)
    (hm : st.currentTool = .camera)
    (hx0 : 0 ≤ x) (hx1 : x ≤ canvasWidth) (hy0 : 0 ≤ y) (hy1 : y ≤ canvasHeight) :
    (handleCanvasClick st x y type).cameras = st.cameras ++
      [{ id := st.nextCameraId, x := x, y := y, type := type,
         angle := 90, range := 50, rotation := 0, floor := st.currentFloor,
         label := type.upper ++ " " ++ toString st.nextCameraId,
         status := "active", price := 350,
         description := "Câmera " ++ type.upper }] ∧
    (handleCanvasClick st x y type).nextCameraId = st.nextCameraId + 1 ∧
    ((∀ c ∈ st.cameras, c.id < st.nextCameraId) →
      (∀ c ∈ (handleCanvasClick st x y type).cameras,
        c.id < (handleCanvasClick st x y type).nextCameraId) ∧
      ((st.cameras.map Camera.id).Nodup →
        (((handleCanvasClick st x y type).cameras.map Camera.id)).Nodup)) := by
  rw [handleCanvasClick_camera st x y type hm hx0 hx1 hy0 hy1]
  refine ⟨rfl, rfl, fun hb => ⟨?_, ?_⟩⟩
  · intro c hc
    simp only [addCamera, List.mem_append, List.mem_singleton] at hc
    rcases hc with h | h
    · have := hb c h
      simp only [addCamera]
      omega
    · subst h
      simp only [addCamera]
      omega
  · intro hnd
    simp only [addCamera, List.map_append, List.map_cons, List.map_nil]
    rw [List.nodup_append]
    refine ⟨hnd, List.nodup_singleton _, ?_⟩
    intro a ha hmem
    simp only [List.mem_singleton] at hmem
    simp only [List.mem_map] at ha
    obtain ⟨c, hc, rfl⟩ := ha
    have := hb c hc
    omega

/-- Claim C6 witness: from the initial state switched to camera mode,
one click at (50, 50) with type dome yields exactly the camera list
`[cam1]` (id 1, position (50, 50), type dome, angle 90, range 50,
rotation 0) and the id counter at 2. -/
theorem C6_camera_click_witness :
    (handleCanvasClick (setMode initialState .camera) 50 50 .dome).cameras = [cam1] ∧
    (handleCanvasClick (setMode initialState .camera) 50 50 .dome).nextCameraId = 2 := by
  have h := C6_camera_click (setMode initialState .camera) 50 50 .dome rfl
    (by decide) (by decide) (by decide) (by decide)
  refine ⟨?_, h.2.1⟩
  rw [h.1]
  rfl

/-- Claim C5: a click in delete mode removes at most one element;
cameras on the current floor whose center lies within the type icon
radius of the click are tried first, and when one matches, the first
such camera is removed and no wall is touched; only when no camera
matches is the first wall on the current floor within the 8 px
tolerance removed. -/
theorem C5_delete_priority (st : AppState) (x y : Int) (type : CameraType)
    (hm : st.currentTool = .delete)
    (hx0 : 0 ≤ x) (hx1 : x ≤ canvasWidth) (hy0 : 0 ≤ y) (hy1 : y ≤ canvasHeight) :
    (∀ i, st.cameras.findIdx? (camHit st.currentFloor x y) = some i →
      (handleCanvasClick st x y type).cameras = st.cameras.eraseIdx i ∧
      (handleCanvasClick st x y type).walls = st.walls) ∧
    (st.cameras.findIdx? (camHit st.currentFloor x y) = none →
      (handleCanvasClick st x y type).cameras = st.cameras ∧
      (∀ j, st.walls.findIdx? (wallHit st.currentFloor x y) = some j →
        (handleCanvasClick st x y type).walls = st.walls.eraseIdx j) ∧
      (st.walls.findIdx? (wallHit st.currentFloor x y) = none →
        (handleCanvasClick st x y type).walls = st.walls)) := by
  rw [handleCanvasClick_delete st x y type hm hx0 hx1 hy0 hy1]
  constructor
  · intro i hi
    simp [deleteAtPosition, hi]
  · intro hnone
    refine ⟨?_, ?_, ?_⟩
    · rcases hw : st.walls.findIdx? (wallHit st.currentFloor x y) with _ | j <;>
        simp [deleteAtPosition, hnone, hw]
    · intro j hj
      simp [deleteAtPosition, hnone, hj]
    · intro hwn
      simp [deleteAtPosition, hnone, hwn]

/-- Claim C5 witness: in `stBoth` the camera `cam1` and the wall
`wall1` are both within tolerance of the click point (50, 50); the
delete-mode click removes exactly the camera and the wall remains. -/
theorem C5_delete_priority_witness :
    (handleCanvasClick stBoth 50 50 .dome).cameras = [] ∧
    (handleCanvasClick stBoth 50 50 .dome).walls = [wall1] := by
  have h := (C5_delete_priority stBoth 50 50 .dome rfl (by decide) (by decide)
    (by decide) (by decide)).1 0 (by decide)
  exact ⟨h.1.trans rfl, h.2.trans rfl⟩

/-- Claim C10: whenever a delete-mode click removes a camera, the
selection is cleared and the handle/edit sub-state reset
unconditionally (even when the removed camera is not the selected
one); when no camera matches (so at most a wall is removed), the
selection and the edit sub-state are untouched. -/
theorem C10_delete_selection_frame (st : AppState) (x y : Int) :
    (∀ i, st.cameras.findIdx? (camHit st.currentFloor x y) = some i →
      (deleteAtPosition st x y).selectedCamera = none ∧
      (deleteAtPosition st x y).cameraEdit = clearedEdit) ∧
    (st.cameras.findIdx? (camHit st.currentFloor x y) = none →
      (deleteAtPosition st x y).selectedCamera = st.selectedCamera ∧
      (deleteAtPosition st x y).cameraEdit = st.cameraEdit) := by
  constructor
  · intro i hi
    simp [deleteAtPosition, hi]
  · intro hnone
    rcases hw : st.walls.findIdx? (wallHit st.currentFloor x y) with _ | j <;>
      simp [deleteAtPosition, hnone, hw]

/-- Claim C10 witness: in `stTwo` the selection is camera 2, yet
deleting camera 1 still clears the selection and resets the edit
sub-state; in `stWallSel` the click removes only the wall and the
selection (camera 2) is untouched. -/
theorem C10_delete_selection_frame_witness :
    ((deleteAtPosition stTwo 50 50).selectedCamera = none ∧
     (deleteAtPosition stTwo 50 50).cameraEdit = clearedEdit) ∧
    (deleteAtPosition stWallSel 50 50).selectedCamera = some 2 ∧
    (deleteAtPosition stWallSel 50 50).walls = [] := by
  refine ⟨(C10_delete_selection_frame stTwo 50 50).1 0 (by decide), ?_, ?_⟩
  · exact ((C10_delete_selection_frame stWallSel 50 50).2 (by decide)).1.trans rfl
  · have hdist : distanceToLineSegmentSq 50 50 40 40 60 60 = 0 := by
      norm_num [distanceToLineSegmentSq, min_def, max_def]
    have h1 : wallHit (1 : Int) 50 50 wall1 = true := by
      simp [wallHit, wall1, hdist]
    have hnone : stWallSel.cameras.findIdx? (camHit stWallSel.currentFloor 50 50) =
        none := by decide
    have hw : stWallSel.walls.findIdx? (wallHit stWallSel.currentFloor 50 50) =
        some 0 := by
      show [wall1].findIdx? (wallHit 1 50 50) = some 0
      rw [List.findIdx?_cons]
      simp [h1]
    simp [deleteAtPosition, hnone, hw]
    rfl

/-- Claim C2 counterexample: starting a wall-draw gesture at (5, 5)
and switching to camera mode leaves the drawing flag set and the start
point recorded (the claim says both must be cleared); moreover, after
switching back to wall mode, the next click completes the stale
gesture from (5, 5) instead of starting a fresh one. -/
theorem C2_mode_switch_counterexample :
    (setMode (handleCanvasClick (setMode initialState .wall) 5 5 .dome)
      .camera).isDrawingWall = true ∧
    (setMode (handleCanvasClick (setMode initialState .wall) 5 5 .dome)
      .camera).wallStartPoint = some (5, 5) ∧
    (handleCanvasClick
      (setMode (setMode (handleCanvasClick (setMode initialState .wall) 5 5 .dome)
        .camera) .wall) 200 200 .dome).walls =
      [{ id := 1, startX := 5, startY := 5, endX := 200, endY := 200,
         thickness := 5, floor := 1, type := "wall" }] := by
  refine ⟨rfl, rfl, by decide⟩

/-- Claim C2 amended: a mode switch changes only the current tool,
leaving gestures and selection fully in place; a floor switch to a
different floor clears the selection and the handle/edit sub-state but
leaves a wall-drawing gesture (flag and start point) and the dragging
flag untouched. -/
theorem C2_mode_floor_switch (st : AppState) (mode : EditMode) (floor : Int) :
    (setMode st mode).currentTool = mode ∧
    (setMode st mode).isDrawingWall = st.isDrawingWall ∧
    (setMode st mode).wallStartPoint = st.wallStartPoint ∧
    (setMode st mode).selectedCamera = st.selectedCamera ∧
    (setMode st mode).cameraEdit = st.cameraEdit ∧
    (setMode st mode).isDragging = st.isDragging ∧
    (setMode st mode).cameras = st.cameras ∧
    (setMode st mode).walls = st.walls ∧
    (floor ≠ st.currentFloor →
      (changeFloor st floor).currentFloor = floor ∧
      (changeFloor st floor).selectedCamera = none ∧
      (changeFloor st floor).cameraEdit = clearedEdit ∧
      (changeFloor st floor).isDrawingWall = st.isDrawingWall ∧
      (changeFloor st floor).wallStartPoint = st.wallStartPoint ∧
      (changeFloor st floor).isDragging = st.isDragging) := by
  refine ⟨rfl, rfl, rfl, rfl, rfl, rfl, rfl, rfl, fun hf => ?_⟩
  simp [changeFloor, hf]

/-- Claim C2 witness: switching `stDrawing` to floor 2 clears the
selection but leaves the wall-draw gesture (flag true, start point
(0, 0)) in place. -/
theorem C2_mode_floor_switch_witness :
    (changeFloor stDrawing 2).selectedCamera = none ∧
    (changeFloor stDrawing 2).isDrawingWall = true ∧
    (changeFloor stDrawing 2).wallStartPoint = some (0, 0) := by
  have h := (C2_mode_floor_switch stDrawing .camera 2).2.2.2.2.2.2.2.2 (by decide)
  exact ⟨h.2.1, h.2.2.2.1.trans rfl, h.2.2.2.2.1.trans rfl⟩

/-- Claim C3 counterexample: with the camera of `stSel` selected, the
update-camera action applied to parsed field values x=50, y=50,
angle=999, range=50, rotation=0 stores angle 999 verbatim — an
out-of-range value is not clamped to the configured bounds
([30, 180]), contradicting the claim. -/
theorem C3_form_guard_counterexample :
    ((updateSelectedCamera stSel 50 50 999 50 0).cameras.map Camera.angle) = [999] ∧
    ¬ ((999 : Int) ≤ 180) := by
  exact ⟨by decide, by decide⟩

/-- Claim C3 amended: position mutations via the position inputs are
NaN-guarded (a failed parse of either coordinate skips the mutation
entirely, leaving the camera unchanged) and clamp the parsed position
into the canvas; the update-camera action also clamps the position,
but stores angle, range and rotation exactly as parsed, with no NaN
guard and no clamping. -/
theorem C3_form_guard (st : AppState) (i : Int) (cam : Camera)
    (xv yv av rv rotv : Int)
    (hsel : st.selectedCamera = some i)
    (hfind : (st.cameras.find? fun c => c.id == i) = some cam) :
    (∀ v, updateCameraPosition st none v = st) ∧
    (∀ v, updateCameraPosition st v none = st) ∧
    getSelected (updateCameraPosition st (some xv) (some yv)) =
      some { cam with x := max 0 (min xv canvasWidth),
                      y := max 0 (min yv canvasHeight) } ∧
    getSelected (updateSelectedCamera st xv yv av rv rotv) =
      some { cam with x := max 0 (min xv canvasWidth),
                      y := max 0 (min yv canvasHeight),
                      angle := av, range := rv, rotation := rotv } := by
  refine ⟨?_, ?_, ?_, ?_⟩
  · intro v
    simp [updateCameraPosition, hsel]
  · intro v
    rcases v with _ | v <;> simp [updateCameraPosition, hsel]
  · have e : updateCameraPosition st (some xv) (some yv) =
        mutateSelected st fun c =>
          { c with x := max 0 (min xv canvasWidth),
                   y := max 0 (min yv canvasHeight) } := by
      simp [updateCameraPosition, hsel]
    rw [e]
    exact getSelected_mutateSelected st i cam _ (fun c => rfl) hsel hfind
  · have e : updateSelectedCamera st xv yv av rv rotv =
        mutateSelected st fun c =>
          { c with x := max 0 (min xv canvasWidth),
                   y := max 0 (min yv canvasHeight),
                   angle := av, range := rv, rotation := rotv } := by
      simp [updateSelectedCamera, hsel]
    rw [e]
    exact getSelected_mutateSelected st i cam _ (fun c => rfl) hsel hfind

/-- Claim C3 witness: on `stSel`, a NaN x-field skips the position
mutation; parsed positions (900, 500) are clamped to (800, 450); the
update-camera action stores 999/500/720 verbatim. -/
theorem C3_form_guard_witness :
    updateCameraPosition stSel none (some 7) = stSel ∧
    getSelected (updateCameraPosition stSel (some 900) (some 500)) =
      some { cam1 with x := 800, y := 450 } ∧
    getSelected (updateSelectedCamera stSel 50 50 999 500 720) =
      some { cam1 with angle := 999, range := 500, rotation := 720 } := by
  have h1 := C3_form_guard stSel 1 cam1 900 500 0 0 0 rfl rfl
  have h2 := C3_form_guard stSel 1 cam1 50 50 999 500 720 rfl rfl
  exact ⟨h1.1 (some 7), h1.2.2.1.trans (by decide), h2.2.2.2.trans (by decide)⟩

/-- With a selection and a non-text-input target, `handleKeyDown`
rewrites the selected camera's rotation by `keyRotation`. -/
theorem handleKeyDown_eq (st : AppState) (i : Int) (cam : Camera)
    (hsel : st.selectedCamera = some i)
    (hfind : (st.cameras.find? fun c => c.id == i) = some cam) (key : Key) :
    getSelected (handleKeyDown st key false) =
      some { cam with rotation := keyRotation key cam.rotation } := by
  cases key <;>
    simp only [handleKeyDown, hsel, Option.isNone_some, Bool.false_eq_true,
      if_false, keyRotation] <;>
    first
      | exact getSelected_mutateSelected st i cam _ (fun c => rfl) hsel hfind
      | simp [getSelected, hsel, hfind]

/-- For a rotation already in `[0, 360)`, every key leaves it in
`[0, 360)`. -/
theorem keyRotation_mem (key : Key) (r : Int) (h0 : 0 ≤ r) (h1 : r < 360) :
    0 ≤ keyRotation key r ∧ keyRotation key r < 360 := by
  cases key <;> simp only [keyRotation] <;>
    first
      | exact tmod360_mem _ (by omega)
      | omega

/-- The direction-preset table only yields rotations in `[0, 360)`. -/
theorem directionPresetValue_mem (s : String) (r : Int)
    (h : directionPresetValue s = some r) : 0 ≤ r ∧ r < 360 := by
  unfold directionPresetValue at h
  split_ifs at h <;> simp_all <;> omega

/-- The configuration-preset table only yields angles in `[30, 180]`
and ranges in `[20, 100]`. -/
theorem cameraPresetValue_mem (s : String) (p : Int × Int)
    (h : cameraPresetValue s = some p) :
    30 ≤ p.1 ∧ p.1 ≤ 180 ∧ 20 ≤ p.2 ∧ p.2 ≤ 100 := by
  unfold cameraPresetValue at h
  split_ifs at h <;>
    first
      | (obtain rfl : _ = p := Option.some_inj.mp h; decide)
      | simp at h

/-- `jsRoundSqrt` on integers is exact on perfect squares. -/
theorem jsRoundSqrtI_sq (d : Int) (hd : 0 ≤ d) : jsRoundSqrtI (d * d) = d := by
  obtain ⟨n, rfl⟩ := Int.eq_ofNat_of_zero_le hd
  rw [show ((n : Int) * n) = ((n * n : ℕ) : Int) by push_cast; ring]
  unfold jsRoundSqrtI
  rw [Int.toNat_natCast, jsRoundSqrt_sq]
  rfl

/-- In the resizing branch (no wall preview, not rotating), a pointer
move is exactly the clamped-range mutation of the selected camera. -/
theorem handleCanvasMouseMove_resize (f : Int → Int → Int) (st : AppState)
    (x y : Int)
    (hdw : st.isDrawingWall = false)
    (hrot : st.cameraEdit.isRotating = false)
    (hres : st.cameraEdit.isResizing = true)
    (hsome : st.selectedCamera.isSome = true) :
    handleCanvasMouseMove f st x y =
      mutateSelected st fun c =>
        { c with range := max 20 (min 100 (jsRoundSqrtI (sqDistI x y c.x c.y))) } := by
  simp [handleCanvasMouseMove, hdw, hrot, hres, hsome]

/-- Claim C7: keyboard rotation is active only when a camera is
selected and the event target is not a text input; left/right (A/D)
set the rotation to `(rotation ∓/± 15 + 360) % 360` with the
JavaScript truncating `%`, which lies in `[0, 360)` for any starting
rotation in the documented `[0, 360)` domain; up/down (W/S) set
90/270; Q/E/Z/C set 135/45/225/315; space resets to 0. -/
theorem C7_keyboard_rotation :
    (∀ (st : AppState) (key : Key) (b : Bool), st.selectedCamera = none →
      handleKeyDown st key b = st) ∧
    (∀ (st : AppState) (key : Key), handleKeyDown st key true = st) ∧
    (∀ (st : AppState) (i : Int) (cam : Camera), st.selectedCamera = some i →
      (st.cameras.find? fun c => c.id == i) = some cam →
      0 ≤ cam.rotation → cam.rotation < 360 →
      (getSelected (handleKeyDown st .arrowLeft false) =
        some { cam with rotation := Int.tmod (cam.rotation + (-15) + 360) 360 } ∧
       getSelected (handleKeyDown st .keyA false) =
        some { cam with rotation := Int.tmod (cam.rotation + (-15) + 360) 360 } ∧
       getSelected (handleKeyDown st .arrowRight false) =
        some { cam with rotation := Int.tmod (cam.rotation + 15 + 360) 360 } ∧
       getSelected (handleKeyDown st .keyD false) =
        some { cam with rotation := Int.tmod (cam.rotation + 15 + 360) 360 } ∧
       getSelected (handleKeyDown st .arrowUp false) = some { cam with rotation := 90 } ∧
       getSelected (handleKeyDown st .keyW false) = some { cam with rotation := 90 } ∧
       getSelected (handleKeyDown st .arrowDown false) = some { cam with rotation := 270 } ∧
       getSelected (handleKeyDown st .keyS false) = some { cam with rotation := 270 } ∧
       getSelected (handleKeyDown st .keyQ false) = some { cam with rotation := 135 } ∧
       getSelected (handleKeyDown st .keyE false) = some { cam with rotation := 45 } ∧
       getSelected (handleKeyDown st .keyZ false) = some { cam with rotation := 225 } ∧
       getSelected (handleKeyDown st .keyC false) = some { cam with rotation := 315 } ∧
       getSelected (handleKeyDown st .space false) = some { cam with rotation := 0 } ∧
       (0 ≤ Int.tmod (cam.rotation + (-15) + 360) 360 ∧
        Int.tmod (cam.rotation + (-15) + 360) 360 < 360) ∧
       (0 ≤ Int.tmod (cam.rotation + 15 + 360) 360 ∧
        Int.tmod (cam.rotation + 15 + 360) 360 < 360))) := by
  refine ⟨?_, ?_, ?_⟩
  · intro st key b h
    simp [handleKeyDown, h]
  · intro st key
    rcases h : st.selectedCamera with _ | i <;> simp [handleKeyDown, h]
  · intro st i cam hsel hfind h0 h1
    exact ⟨handleKeyDown_eq st i cam hsel hfind .arrowLeft,
      handleKeyDown_eq st i cam hsel hfind .keyA,
      handleKeyDown_eq st i cam hsel hfind .arrowRight,
      handleKeyDown_eq st i cam hsel hfind .keyD,
      handleKeyDown_eq st i cam hsel hfind .arrowUp,
      handleKeyDown_eq st i cam hsel hfind .keyW,
      handleKeyDown_eq st i cam hsel hfind .arrowDown,
      handleKeyDown_eq st i cam hsel hfind .keyS,
      handleKeyDown_eq st i cam hsel hfind .keyQ,
      handleKeyDown_eq st i cam hsel hfind .keyE,
      handleKeyDown_eq st i cam hsel hfind .keyZ,
      handleKeyDown_eq st i cam hsel hfind .keyC,
      handleKeyDown_eq st i cam hsel hfind .space,
      tmod360_mem _ (by omega), tmod360_mem _ (by omega)⟩

/-- Claim C7 witness: two left presses on a camera rotated to 10°
(a net delta of -30°) yield 340°, never a negative value, and W snaps
to 90°. -/
theorem C7_keyboard_rotation_witness :
    getSelected (handleKeyDown (handleKeyDown stRot10 .arrowLeft false) .arrowLeft false) =
      some { cam1 with rotation := 340 } ∧
    getSelected (handleKeyDown stRot10 .keyW false) =
      some { cam1 with rotation := 90 } := by
  constructor
  · have h2 := (C7_keyboard_rotation.2.2 (handleKeyDown stRot10 .arrowLeft false) 1
      { cam1 with rotation := 355 } (by decide) (by decide) (by decide) (by decide)).1
    exact h2.trans (by decide)
  · have h3 := (C7_keyboard_rotation.2.2 stRot10 1 { cam1 with rotation := 10 }
      (by decide) (by decide) (by decide) (by decide)).2.2.2.2.2.1
    exact h3.trans (by decide)

/-- Claim C8: while a range-resize gesture is active on the selected
camera (and no wall preview or rotation takes precedence), every
pointer move sets the camera's range to the rounded distance from the
camera center to the pointer clamped into [20, 100]; in particular the
stored range always lies in [20, 100], and for a pointer at an exact
integer distance `d` the stored range is `max 20 (min 100 d)`. -/
theorem C8_range_resize (f : Int → Int → Int) (st : AppState) (i : Int)
    (cam : Camera) (x y : Int)
    (hdw : st.isDrawingWall = false)
    (hrot : st.cameraEdit.isRotating = false)
    (hres : st.cameraEdit.isResizing = true)
    (hsel : st.selectedCamera = some i)
    (hfind : (st.cameras.find? fun c => c.id == i) = some cam) :
    getSelected (handleCanvasMouseMove f st x y) =
      some { cam with range := max 20 (min 100 (jsRoundSqrtI (sqDistI x y cam.x cam.y))) } ∧
    (∀ c, getSelected (handleCanvasMouseMove f st x y) = some c →
      20 ≤ c.range ∧ c.range ≤ 100) ∧
    (∀ d : Int, 0 ≤ d → sqDistI x y cam.x cam.y = d * d →
      getSelected (handleCanvasMouseMove f st x y) =
        some { cam with range := max 20 (min 100 d) }) := by
  have e := handleCanvasMouseMove_resize f st x y hdw hrot hres (by simp [hsel])
  have h1 : getSelected (handleCanvasMouseMove f st x y) =
      some { cam with range := max 20 (min 100 (jsRoundSqrtI (sqDistI x y cam.x cam.y))) } := by
    rw [e]
    exact getSelected_mutateSelected st i cam _ (fun c => rfl) hsel hfind
  refine ⟨h1, ?_, ?_⟩
  · intro c hc
    rw [h1] at hc
    obtain rfl : _ = c := Option.some_inj.mp hc
    constructor <;> simp <;> omega
  · intro d hd hsq
    rw [h1, hsq, jsRoundSqrtI_sq d hd]

/-- Claim C8 witness: on `stResize` (camera at (50, 50)), a pointer at
(550, 50) — distance 500 — stores range exactly 100, and a pointer at
(55, 50) — distance 5 — stores exactly 20. -/
theorem C8_range_resize_witness :
    getSelected (handleCanvasMouseMove (fun _ _ => 0) stResize 550 50) =
      some { cam1 with range := 100 } ∧
    getSelected (handleCanvasMouseMove (fun _ _ => 0) stResize 55 50) =
      some { cam1 with range := 20 } := by
  have h1 := (C8_range_resize (fun _ _ => 0) stResize 1 cam1 550 50
    rfl rfl rfl rfl rfl).2.2 500 (by decide) (by decide)
  have h2 := (C8_range_resize (fun _ _ => 0) stResize 1 cam1 55 50
    rfl rfl rfl rfl rfl).2.2 5 (by decide) (by decide)
  exact ⟨h1.trans (by decide), h2.trans (by decide)⟩

/-- Claim C1 counterexample: with the camera of `stSel` selected, the
update-camera action with parsed range 500 stores range 500, outside
the configured bounds [20, 100] — so it is not true that every edit
operation keeps angle/range/rotation within bounds. -/
theorem C1_bounds_counterexample :
    ((updateSelectedCamera stSel 50 50 90 500 0).cameras.map Camera.range) = [500] ∧
    ¬ ((500 : Int) ≤ 100) := by
  exact ⟨by decide, by decide⟩

/-- Claim C1 amended: keyboard rotation, direction presets,
configuration presets and the range-resize drag keep the selected
camera within its configured bounds (angle [30, 180], range [20, 100],
rotation [0, 360)), but the update-camera form action stores parsed
angle/range/rotation verbatim, so those edits do not preserve the
bounds. -/
theorem C1_bounds_after_edit (st : AppState) (i : Int) (cam : Camera)
    (hsel : st.selectedCamera = some i)
    (hfind : (st.cameras.find? fun c => c.id == i) = some cam)
    (hb : CameraInBounds cam) :
    (∀ (key : Key) (b : Bool) (c : Camera),
      getSelected (handleKeyDown st key b) = some c → CameraInBounds c) ∧
    (∀ (d : String) (c : Camera),
      getSelected (applyCameraDirectionPreset st d) = some c → CameraInBounds c) ∧
    (∀ (p : String) (c : Camera),
      getSelected (applyCameraPreset st p) = some c → CameraInBounds c) ∧
    (∀ (f : Int → Int → Int) (x y : Int) (c : Camera),
      st.isDrawingWall = false → st.cameraEdit.isRotating = false →
      st.cameraEdit.isResizing = true →
      getSelected (handleCanvasMouseMove f st x y) = some c → CameraInBounds c) ∧
    (∀ xv yv av rv rotv,
      getSelected (updateSelectedCamera st xv yv av rv rotv) =
        some { cam with x := max 0 (min xv canvasWidth),
                        y := max 0 (min yv canvasHeight),
                        angle := av, range := rv, rotation := rotv }) := by
  obtain ⟨hb1, hb2, hb3, hb4, hb5, hb6⟩ := hb
  have hgs : getSelected st = some cam := by simp [getSelected, hsel, hfind]
  refine ⟨?_, ?_, ?_, ?_, ?_⟩
  · intro key b c hc
    cases b with
    | true =>
      have e : handleKeyDown st key true = st := by simp [handleKeyDown, hsel]
      rw [e, hgs] at hc
      obtain rfl : cam = c := Option.some_inj.mp hc
      exact ⟨hb1, hb2, hb3, hb4, hb5, hb6⟩
    | false =>
      rw [handleKeyDown_eq st i cam hsel hfind key] at hc
      obtain rfl : _ = c := Option.some_inj.mp hc
      have := keyRotation_mem key cam.rotation hb5 hb6
      exact ⟨hb1, hb2, hb3, hb4, this.1, this.2⟩
  · intro d c hc
    rcases hdp : directionPresetValue d.toLower with _ | r
    · have e : applyCameraDirectionPreset st d = st := by
        simp [applyCameraDirectionPreset, hsel, hdp]
      rw [e, hgs] at hc
      obtain rfl : cam = c := Option.some_inj.mp hc
      exact ⟨hb1, hb2, hb3, hb4, hb5, hb6⟩
    · have e : applyCameraDirectionPreset st d =
          mutateSelected st fun c0 => { c0 with rotation := r } := by
        simp [applyCameraDirectionPreset, hsel, hdp]
      rw [e, getSelected_mutateSelected st i cam
        (fun c0 => { c0 with rotation := r }) (fun c0 => rfl) hsel hfind] at hc
      obtain rfl : _ = c := Option.some_inj.mp hc
      have := directionPresetValue_mem _ r hdp
      exact ⟨hb1, hb2, hb3, hb4, this.1, this.2⟩
  · intro p c hc
    rcases hdp : cameraPresetValue p with _ | pr
    · have e : applyCameraPreset st p = st := by
        simp [applyCameraPreset, hsel, hdp]
      rw [e, hgs] at hc
      obtain rfl : cam = c := Option.some_inj.mp hc
      exact ⟨hb1, hb2, hb3, hb4, hb5, hb6⟩
    · have e : applyCameraPreset st p =
          mutateSelected st fun c0 => { c0 with angle := pr.1, range := pr.2 } := by
        simp [applyCameraPreset, hsel, hdp]
      rw [e, getSelected_mutateSelected st i cam
        (fun c0 => { c0 with angle := pr.1, range := pr.2 }) (fun c0 => rfl) hsel hfind] at hc
      obtain rfl : _ = c := Option.some_inj.mp hc
      have := cameraPresetValue_mem _ pr hdp
      exact ⟨this.1, this.2.1, this.2.2.1, this.2.2.2, hb5, hb6⟩
  · intro f x y c hdw hrot hres hc
    rw [handleCanvasMouseMove_resize f st x y hdw hrot hres (by simp [hsel]),
      getSelected_mutateSelected st i cam
        (fun c0 => { c0 with range := max 20 (min 100 (jsRoundSqrtI (sqDistI x y c0.x c0.y))) })
        (fun c0 => rfl) hsel hfind] at hc
    obtain rfl : _ = c := Option.some_inj.mp hc
    refine ⟨hb1, hb2, ?_, ?_, hb5, hb6⟩ <;> simp <;> omega
  · intro xv yv av rv rotv
    have e : updateSelectedCamera st xv yv av rv rotv =
        mutateSelected st fun c0 =>
          { c0 with x := max 0 (min xv canvasWidth),
                    y := max 0 (min yv canvasHeight),
                    angle := av, range := rv, rotation := rotv } := by
      simp [updateSelectedCamera, hsel]
    rw [e]
    exact getSelected_mutateSelected st i cam _ (fun c0 => rfl) hsel hfind

/-- Claim C1 witness: on `stSel`, a left-arrow press yields the camera
with rotation 345, still within bounds, and the "wide" preset yields
angle 120, range 80, within bounds. -/
theorem C1_bounds_after_edit_witness :
    CameraInBounds { cam1 with rotation := 345 } ∧
    CameraInBounds { cam1 with angle := 120, range := 80 } := by
  have h := C1_bounds_after_edit stSel 1 cam1 rfl rfl (by decide)
  exact ⟨h.1 .arrowLeft false _ (by decide), h.2.2.1 "wide" _ (by decide)⟩

/-- Claim C9: the point-to-segment distance function returns the
distance to the orthogonal projection when the projection parameter
`t0` lies in [0, 1] (the residual is orthogonal to the segment), and
otherwise the distance to the nearest endpoint — never the
infinite-line distance; a zero-length segment degrades to
point-to-point distance.  Stated on the squared embedding
(`distanceToLineSegmentSq` is the square of the source's return
value); `dx`, `dy`, `L`, `t0` name the source's intermediate values. -/
theorem C9_segment_distance (px py x1 y1 x2 y2 dx dy L t0 : ℚ)
    (hdx : dx = x2 - x1) (hdy : dy = y2 - y1) (hL : L = dx * dx + dy * dy)
    (ht : t0 = ((px - x1) * dx + (py - y1) * dy) / L) :
    (L = 0 →
      distanceToLineSegmentSq px py x1 y1 x2 y2 =
        (px - x1) ^ 2 + (py - y1) ^ 2) ∧
    (L ≠ 0 →
      ((0 ≤ t0 → t0 ≤ 1 →
        distanceToLineSegmentSq px py x1 y1 x2 y2 =
          (px - (x1 + t0 * dx)) ^ 2 + (py - (y1 + t0 * dy)) ^ 2 ∧
        (px - (x1 + t0 * dx)) * dx + (py - (y1 + t0 * dy)) * dy = 0) ∧
       (t0 < 0 →
        distanceToLineSegmentSq px py x1 y1 x2 y2 =
          (px - x1) ^ 2 + (py - y1) ^ 2 ∧
        (px - x1) ^ 2 + (py - y1) ^ 2 ≤ (px - x2) ^ 2 + (py - y2) ^ 2) ∧
       (1 < t0 →
        distanceToLineSegmentSq px py x1 y1 x2 y2 =
          (px - x2) ^ 2 + (py - y2) ^ 2 ∧
        (px - x2) ^ 2 + (py - y2) ^ 2 ≤ (px - x1) ^ 2 + (py - y1) ^ 2))) := by
  subst hdx
  subst hdy
  subst hL
  subst ht
  constructor
  · intro h
    simp only [distanceToLineSegmentSq]
    rw [if_pos h]
  · intro h
    have hL0 : (0 : ℚ) ≤ (x2 - x1) * (x2 - x1) + (y2 - y1) * (y2 - y1) := by
      nlinarith [mul_self_nonneg (x2 - x1), mul_self_nonneg (y2 - y1)]
    have hLpos : (0 : ℚ) < (x2 - x1) * (x2 - x1) + (y2 - y1) * (y2 - y1) :=
      lt_of_le_of_ne hL0 (Ne.symm h)
    refine ⟨?_, ?_, ?_⟩
    · intro ht0 ht1
      constructor
      · simp only [distanceToLineSegmentSq]
        rw [if_neg h, min_eq_right ht1, max_eq_right ht0]
      · field_simp
        ring
    · intro ht
      have hdotneg : (px - x1) * (x2 - x1) + (py - y1) * (y2 - y1) < 0 := by
        rcases div_neg_iff.mp ht with ⟨_, h2⟩ | ⟨h1, _⟩
        · exact absurd hLpos (not_lt.mpr h2.le)
        · exact h1
      constructor
      · simp only [distanceToLineSegmentSq]
        rw [if_neg h, min_eq_right (le_trans ht.le (by norm_num)),
          max_eq_left ht.le]
        ring
      · have key : (px - x2) ^ 2 + (py - y2) ^ 2 =
            (px - x1) ^ 2 + (py - y1) ^ 2 -
              2 * ((px - x1) * (x2 - x1) + (py - y1) * (y2 - y1)) +
              ((x2 - x1) * (x2 - x1) + (y2 - y1) * (y2 - y1)) := by
          ring
        linarith
    · intro ht
      have hdotgt : (x2 - x1) * (x2 - x1) + (y2 - y1) * (y2 - y1) <
          (px - x1) * (x2 - x1) + (py - y1) * (y2 - y1) :=
        (one_lt_div hLpos).mp ht
      constructor
      · simp only [distanceToLineSegmentSq]
        rw [if_neg h, min_eq_left ht.le, max_eq_right (by norm_num : (0:ℚ) ≤ 1)]
        ring
      · have key : (px - x2) ^ 2 + (py - y2) ^ 2 =
            (px - x1) ^ 2 + (py - y1) ^ 2 -
              2 * ((px - x1) * (x2 - x1) + (py - y1) * (y2 - y1)) +
              ((x2 - x1) * (x2 - x1) + (y2 - y1) * (y2 - y1)) := by
          ring
        linarith

/-- Claim C9 witness: for the segment (0,0)–(100,0), the point (50,5)
has squared distance 25 (distance 5, via the interior projection), and
the point (150,0) has squared distance 2500 (distance 50, clamped to
the nearest endpoint, not the infinite-line distance 0). -/
theorem C9_segment_distance_witness :
    distanceToLineSegmentSq 50 5 0 0 100 0 = 25 ∧
    distanceToLineSegmentSq 150 0 0 0 100 0 = 2500 := by
  have h1 := ((C9_segment_distance 50 5 0 0 100 0 100 0 10000 (1/2)
    (by norm_num) (by norm_num) (by norm_num) (by norm_num)).2 (by norm_num)).1
    (by norm_num) (by norm_num)
  have h2 := ((C9_segment_distance 150 0 0 0 100 0 100 0 10000 (3/2)
    (by norm_num) (by norm_num) (by norm_num) (by norm_num)).2 (by norm_num)).2.2
    (by norm_num)
  exact ⟨h1.1.trans (by norm_num), h2.1.trans (by norm_num)⟩

end CFTV
